import Mathlib

/-!
Formal model of the ARCCS regulatory-compliance pipeline, embedded from the
repository sources: the compliance classifier and report aggregator (CCM.py),
the duplicate-regulation merger (merge_regulations.py), the two quality
scorers (RPEM.py and filter_regulations_funcs.py) and the markdown section
splitter (RPEM.py).  Oracle (LLM) calls are modelled as explicit function
parameters, or as an Except value describing the outcome of one call; numeric
scores are modelled over the exact rationals.
-/

/-- JSON-like values: the shape of parsed regulation records and oracle
payloads (Python dicts, lists, strings, numbers, booleans and None). -/
inductive JVal where
  | null : JVal
  | bool (b : Bool) : JVal
  | num (q : ℚ) : JVal
  | str (s : String) : JVal
  | arr (items : List JVal) : JVal
  | obj (fields : List (String × JVal)) : JVal

/-- Python truthiness of a JSON value: None, False, 0, the empty string and
empty containers are falsy. -/
def JVal.truthy : JVal → Bool
  | .null => false
  | .bool b => b
  | .num q => q != 0
  | .str s => s != ""
  | .arr items => !items.isEmpty
  | .obj fields => !fields.isEmpty

/-- Python d.get(k, default) on a dict modelled as an association list
(first binding wins). -/
def jgetD (reg : List (String × JVal)) (k : String) (d : JVal) : JVal :=
  ((reg.find? (fun kv => kv.1 == k)).map Prod.snd).getD d

/-- Python d.get(k): absent keys give None. -/
def jget (reg : List (String × JVal)) (k : String) : JVal :=
  jgetD reg k .null

/-- Round a rational to the nearest integer with ties going to the even
integer, which is the rounding mode of Python round(). -/
def roundHalfEven (q : ℚ) : ℤ :=
  if q - ⌊q⌋ < 1/2 then ⌊q⌋
  else if 1/2 < q - ⌊q⌋ then ⌊q⌋ + 1
  else if ⌊q⌋ % 2 = 0 then ⌊q⌋ else ⌊q⌋ + 1

/-- Python round(x, 1), on exact rationals. -/
def roundTo1 (q : ℚ) : ℚ := (roundHalfEven (10 * q) : ℚ) / 10

/-- A regulation record is a parsed JSON object. -/
abbrev RegRecord := List (String × JVal)

/-- Python string slicing value[:n] on a JSON string; other values are kept
as they are (the source would render them with str() first, a rendering
that is opaque oracle input). -/
def jtruncate (n : ℕ) : JVal → JVal
  | .str s => .str (s.take n)
  | v => v

/-! ## CCM.py: compliance classification -/

/-- The data that check_regulation_compliance extracts from the regulation
record: reg_name and reg_id via regulation.get with their defaults (the
present value is kept whatever it is, including None), and the description,
requirements and restrictions projections that feed the prompt text.  The
prompt serialisation itself is opaque oracle input. -/
structure CCMPromptData where
  reg_name : JVal
  reg_id : JVal
  brief : JVal
  requirements : JVal
  restrictions : JVal

/-- Lines 42 to 52 of CCM.py: the projections of the regulation record
taken before the oracle call.  brief is the brief_summary of a dict-valued
description (default N/A), otherwise the str() rendering cut at 500. -/
def ccm_prompt_data (regulation : RegRecord) : CCMPromptData :=
  { reg_name := jgetD regulation "regulation_name" (.str "Unknown")
    reg_id := jgetD regulation "regulation_id" (.str "N/A")
    brief :=
      match jgetD regulation "description" (.obj []) with
      | .obj fields => jgetD fields "brief_summary" (.str "N/A")
      | v => jtruncate 500 v
    requirements := jgetD regulation "requirements" (.obj [])
    restrictions := jgetD regulation "restrictions" (.obj []) }

/-- The parsed JSON object flowing through check_regulation_compliance:
the oracle response schema, plus the error key added on failure.  Absent
keys are none. -/
structure CCMResult where
  regulation_id : Option JVal := none
  regulation_name : Option JVal := none
  contradiction_found : Option Bool := none
  has_relevant_information : Option Bool := none
  missing_information : Option String := none
  contradiction_details : Option String := none
  compliance_status : Option String := none
  evidence : Option String := none
  confidence_score : Option ℚ := none
  explanation : Option String := none
  error : Option String := none

/-- CCM.check_regulation_compliance.  The oracle argument is the outcome of
the try block around the openai call and JSON parse: ok with the parsed
response, or error with the exception text.  On success the final
compliance_status is re-derived from contradiction_found (default False),
has_relevant_information (default True) and confidence_score (default 0.5);
on failure the fail-open COMPLIANT result is returned. -/
def check_regulation_compliance (regulation : RegRecord) (proposal_chunk : String)
    (oracle : Except String CCMResult) : CCMResult :=
  let reg_name := jgetD regulation "regulation_name" (.str "Unknown")
  let reg_id := jgetD regulation "regulation_id" (.str "N/A")
  match oracle with
  | .ok result =>
      let contradiction_found := result.contradiction_found.getD false
      let has_info := result.has_relevant_information.getD true
      let confidence := result.confidence_score.getD (1/2)
      let status :=
        if contradiction_found = true then "NON_COMPLIANT"
        else if has_info = false then "INSUFFICIENT_INFORMATION"
        else if confidence < 7/10 then "HUMAN_REQUIRED"
        else "COMPLIANT"
      { result with compliance_status := some status }
  | .error e =>
      { regulation_id := some reg_id
        regulation_name := some reg_name
        contradiction_found := some false
        compliance_status := some "COMPLIANT"
        explanation := some ("Error during analysis: " ++ e)
        error := some e }

/-- The summary block of the compliance report. -/
structure ReportSummary where
  compliant : ℕ
  non_compliant : ℕ
  insufficient_info : ℕ
  human_required : ℕ
  total : ℕ
  compliance_rate : ℚ
deriving DecidableEq

/-- The report returned by CCM.generate_compliance_report. -/
structure ComplianceReport where
  overall_status : String
  summary : ReportSummary
  violations : List CCMResult
  needs_review : List CCMResult
  detailed_results : List CCMResult

/-- CCM.generate_compliance_report: tallies per status, overall status
string, violation and review lists, and the compliance rate computed from
definitive (COMPLIANT or NON_COMPLIANT) results only. -/
def generate_compliance_report (results : List CCMResult) : ComplianceReport :=
  let compliant := results.countP (fun r => r.compliance_status == some "COMPLIANT")
  let non_compliant := results.countP (fun r => r.compliance_status == some "NON_COMPLIANT")
  let insufficient_info := results.countP (fun r => r.compliance_status == some "INSUFFICIENT_INFORMATION")
  let human_required := results.countP (fun r => r.compliance_status == some "HUMAN_REQUIRED")
  let violations := results.filter (fun r => r.compliance_status == some "NON_COMPLIANT")
  let needs_review := results.filter (fun r =>
    r.compliance_status == some "INSUFFICIENT_INFORMATION" ||
    r.compliance_status == some "HUMAN_REQUIRED")
  let total := results.length
  let overall :=
    if non_compliant > 0 then
      "❌ NON-COMPLIANT - " ++ toString non_compliant ++ " violation(s) found"
    else if insufficient_info > 0 || human_required > 0 then
      "⚠️ REVIEW REQUIRED - " ++ toString (insufficient_info + human_required) ++ " item(s) need attention"
    else
      "✅ COMPLIANT - No violations found in " ++ toString total ++ " regulations"
  let definitive_total := compliant + non_compliant
  let compliance_rate : ℚ :=
    if definitive_total > 0 then (compliant : ℚ) / (definitive_total : ℚ) * 100 else 0
  { overall_status := overall
    summary :=
      { compliant := compliant
        non_compliant := non_compliant
        insufficient_info := insufficient_info
        human_required := human_required
        total := total
        compliance_rate := roundTo1 compliance_rate }
    violations := violations
    needs_review := needs_review
    detailed_results := results }

/-! ## merge_regulations.py: oracle-driven deduplication -/

/-- One duplicate pair reported by the oracle: indices into the regulation
list, the shared regulation id and the explanation.  The indices are parsed
JSON integers; nothing in the source constrains them to be non-negative. -/
structure DupPair where
  delete_index : ℤ
  keep_index : ℤ
  regulation_id : String
  reason : String
deriving DecidableEq

/-- The compact per-regulation summary sent to the deduplication oracle.
The oracle prompt serialises these to text; that serialisation is opaque
oracle input and is not modelled, only the projected data is. -/
structure RegSummary where
  index : ℕ
  regulation_id : JVal
  regulation_name : JVal
  regulation_type : JVal
  source_section : JVal
  description_brief : JVal
  requirements_summary : JVal

/-- Build the summary of regulation number i, as in the reg_summaries loop
of merge_duplicate_regulations. -/
def mkRegSummary (i : ℕ) (reg : RegRecord) : RegSummary :=
  { index := i
    regulation_id := jgetD reg "regulation_id" (.str "N/A")
    regulation_name := jgetD reg "regulation_name" (.str "Unknown")
    regulation_type := jgetD reg "regulation_type" (.str "N/A")
    source_section := jgetD reg "source_section" (.str "N/A")
    description_brief :=
      match reg.find? (fun kv => kv.1 == "description") with
      | some (_, .obj fields) =>
          jtruncate 300 (((fields.find? (fun kv => kv.1 == "brief_summary")).map Prod.snd).getD (.str ""))
      | some (_, v) => jtruncate 300 v
      | none => .str ""
    requirements_summary := jtruncate 500 (jgetD reg "requirements" (.obj [])) }

/-- The full summary list with absolute indices. -/
def reg_summaries (regulations : List RegRecord) : List RegSummary :=
  regulations.enum.map (fun p => mkRegSummary p.1 p.2)

/-- Python range(0, n, batch_size): the starting offsets of the batches. -/
def batch_starts (n batch_size : ℕ) : List ℕ :=
  List.range' 0 ((n + batch_size - 1) / batch_size) batch_size

/-- Adjust batch-local indices by the batch offset, as done to every pair
in duplicates_found. -/
def offsetPair (batch_start : ℕ) (p : DupPair) : DupPair :=
  { p with delete_index := p.delete_index + (batch_start : ℤ)
           keep_index := p.keep_index + (batch_start : ℤ) }

/-- The all_deletions list accumulated by the batch loop of
merge_duplicate_regulations: one oracle call per batch; a failed call
(none) is skipped and contributes nothing; returned indices are shifted by
the batch offset.  The loop body is never reached when the input has at
most one regulation. -/
def all_deletions_of (regulations : List RegRecord)
    (oracle : List RegSummary → Option (List DupPair)) (batch_size : ℕ) : List DupPair :=
  if regulations.length ≤ 1 then [] else
  ((batch_starts regulations.length batch_size).map (fun batch_start =>
    match oracle (((reg_summaries regulations).drop batch_start).take batch_size) with
    | some pairs => pairs.map (offsetPair batch_start)
    | none => [])).join

/-- The record fields copied into the deletion log for one side of a pair. -/
structure DeletionRegInfo where
  index : ℤ
  regulation_id : JVal
  regulation_name : JVal
  source_section : JVal

/-- One entry of the deletion log. -/
structure DeletionLogEntry where
  deleted_regulation : DeletionRegInfo
  kept_regulation : DeletionRegInfo
  reason : String

/-- Python list indexing regulations[i] on an int index i: non-negative
indices count from the front, indices in [-len, 0) from the back.  Anything
further out is out of range: Python raises IndexError there, so every
theorem below about a run that logs a pair keeps the logged indices inside
the non-raising range. -/
def pyElem (regulations : List RegRecord) (i : ℤ) : Option RegRecord :=
  if 0 ≤ i then regulations.get? i.toNat
  else if -(regulations.length : ℤ) ≤ i then
    regulations.get? ((regulations.length : ℤ) + i).toNat
  else none

/-- Project the logged fields of regulations[i]. -/
def mkDeletionInfo (regulations : List RegRecord) (i : ℤ) : DeletionRegInfo :=
  { index := i
    regulation_id := jget ((pyElem regulations i).getD []) "regulation_id"
    regulation_name := jget ((pyElem regulations i).getD []) "regulation_name"
    source_section := jget ((pyElem regulations i).getD []) "source_section" }

/-- The bounds check applied to each pair before logging it and marking its
delete index: delete_idx < len(regulations) and keep_idx < len(regulations).
The comparison has no lower bound, so negative indices pass it. -/
def validPair (n : ℕ) (d : DupPair) : Bool :=
  decide (d.delete_index < (n : ℤ)) && decide (d.keep_index < (n : ℤ))

/-- Lines 115 to 147 of merge_regulations.py: build the deletion log from
the accumulated pairs (one entry per pair passing the bounds check),
collect the set of delete indices, and keep exactly the records whose
enumerate position (a non-negative int) is not in that set, in original
order.  A negative delete index that passes the check is logged but never
equals an enumerate position, so it removes nothing. -/
def merge_core (regulations : List RegRecord) (all_deletions : List DupPair) :
    List RegRecord × List DeletionLogEntry :=
  let valid := all_deletions.filter (validPair regulations.length)
  let deletion_log := valid.map (fun d =>
    { deleted_regulation := mkDeletionInfo regulations d.delete_index
      kept_regulation := mkDeletionInfo regulations d.keep_index
      reason := d.reason })
  let indices_to_delete : List ℤ := valid.map (fun d => d.delete_index)
  let cleaned := (regulations.enum.filter
    (fun p => !decide ((p.1 : ℤ) ∈ indices_to_delete))).map Prod.snd
  (cleaned, deletion_log)

/-- merge_duplicate_regulations: lists of at most one regulation return
unchanged with an empty log before any batching; otherwise the batch loop
runs and the accumulated pairs are merged.  The api_key only configures the
client and the oracle argument stands for the per-batch call outcome. -/
def merge_duplicate_regulations (regulations : List RegRecord) (api_key : String)
    (oracle : List RegSummary → Option (List DupPair)) (batch_size : ℕ) :
    List RegRecord × List DeletionLogEntry :=
  if regulations.length ≤ 1 then (regulations, [])
  else merge_core regulations (all_deletions_of regulations oracle batch_size)

/-- The batch payloads that merge_duplicate_regulations sends to the
oracle: none at all in the degenerate branch, else one per batch offset. -/
def merge_oracle_batches (regulations : List RegRecord) (batch_size : ℕ) :
    List (List RegSummary) :=
  if regulations.length ≤ 1 then []
  else (batch_starts regulations.length batch_size).map (fun batch_start =>
    ((reg_summaries regulations).drop batch_start).take batch_size)

/-- The summary block of deduplicate_regulations. -/
structure DedupSummary where
  original_count : ℕ
  cleaned_count : ℕ
  duplicates_removed : ℕ
deriving DecidableEq

/-- The result dict of deduplicate_regulations. -/
structure DedupResult where
  cleaned_regulations : List RegRecord
  deletion_log : List DeletionLogEntry
  summary : DedupSummary

/-- deduplicate_regulations: run the merge with the default batch size of
50 and report original, cleaned and removed counts. -/
def deduplicate_regulations (regulations : List RegRecord) (api_key : String)
    (oracle : List RegSummary → Option (List DupPair)) : DedupResult :=
  let r := merge_duplicate_regulations regulations api_key oracle 50
  { cleaned_regulations := r.1
    deletion_log := r.2
    summary :=
      { original_count := regulations.length
        cleaned_count := r.1.length
        duplicates_removed := r.2.length } }

/-- The delete indices of the pairs that pass the bounds check, across all
batches. -/
def validDeleteIndices (regulations : List RegRecord)
    (oracle : List RegSummary → Option (List DupPair)) (batch_size : ℕ) : List ℤ :=
  ((all_deletions_of regulations oracle batch_size).filter
    (validPair regulations.length)).map (fun d => d.delete_index)

/-- The keep indices of the pairs that pass the bounds check, across all
batches. -/
def validKeepIndices (regulations : List RegRecord)
    (oracle : List RegSummary → Option (List DupPair)) (batch_size : ℕ) : List ℤ :=
  ((all_deletions_of regulations oracle batch_size).filter
    (validPair regulations.length)).map (fun d => d.keep_index)

/-- Modelled from the words of claim C4: the original list with exactly the
union of the nominated delete indices removed, in original order; only
membership of an index matters, not multiplicity nor keep nominations. -/
def removeIndices (regulations : List RegRecord) (idxs : List ℤ) : List RegRecord :=
  (regulations.enum.filter (fun p => !decide ((p.1 : ℤ) ∈ idxs))).map Prod.snd

/-! ## RPEM.py and filter_regulations_funcs.py: quality scoring -/

/-- Python membership in the sentinel list of blank critical values
[None, "null", "", "N/A", "Unknown"]: only None and those exact strings
compare equal to a member. -/
def inBlankListCrit : JVal → Bool
  | .null => true
  | .str s => s == "null" || s == "" || s == "N/A" || s == "Unknown"
  | _ => false

/-- Python membership in [None, "null", ""]. -/
def inBlankListShort : JVal → Bool
  | .null => true
  | .str s => s == "null" || s == ""
  | _ => false

/-- Python membership in [None, "null", "", []]; the empty list compares
equal to the [] member. -/
def inBlankListShortF : JVal → Bool
  | .null => true
  | .str s => s == "null" || s == ""
  | .arr items => items.isEmpty
  | _ => false

/-- Number of immediate sub-values that are truthy and not in
[None, "null", ""], as counted by both scorers on dict-valued fields. -/
def subNonNull (fields : List (String × JVal)) : ℕ :=
  fields.countP (fun kv => kv.2.truthy && !inBlankListShort kv.2)

/-- The same count with the sentinel list [None, "null", "", []] used by
calculate_regulation_quality_score on important and supplementary dicts. -/
def subNonNullF (fields : List (String × JVal)) : ℕ :=
  fields.countP (fun kv => kv.2.truthy && !inBlankListShortF kv.2)

/-- RPEM critical-field contribution: full points for a populated scalar or
list, proportional sub-field credit for a dict, zero for blanks. -/
def rpemCritScore (points : ℚ) (value : JVal) : ℚ :=
  if value.truthy && !inBlankListCrit value then
    match value with
    | .obj fields => points * ((subNonNull fields : ℚ) / ((max fields.length 1 : ℕ) : ℚ))
    | _ => points
  else 0

/-- RPEM important-field contribution: proportional credit for dicts, full
points for non-empty lists, full points for other populated values. -/
def rpemImpScore (points : ℚ) (value : JVal) : ℚ :=
  if value.truthy && !inBlankListShort value then
    match value with
    | .obj fields => points * ((subNonNull fields : ℚ) / ((max fields.length 1 : ℕ) : ℚ))
    | .arr items => points * (if items.length > 0 then 1 else 0)
    | _ => points
  else 0

/-- RPEM supplementary-field contribution: flat points when populated. -/
def rpemSuppScore (points : ℚ) (value : JVal) : ℚ :=
  if value.truthy && !inBlankListShort value then points else 0

/-- The critical tier: 4 fields of 10 points. -/
def critical_fields : List (String × ℚ) :=
  [("regulation_id", 10), ("regulation_name", 10), ("regulation_type", 10), ("description", 10)]

/-- The important tier: 5 fields of 6 points. -/
def important_fields : List (String × ℚ) :=
  [("jurisdiction", 6), ("domain", 6), ("scope", 6), ("requirements", 6), ("restrictions", 6)]

/-- The supplementary tier: 6 fields of 5 points. -/
def supplementary_fields : List (String × ℚ) :=
  [("rights_granted", 5), ("exceptions", 5), ("compliance_requirements", 5),
   ("enforcement", 5), ("dates", 5), ("keywords", 5)]

/-- The raw score accumulated by RPEM.calculate_quality_score before
rounding. -/
def rpemRawScore (regulation : RegRecord) : ℚ :=
  (critical_fields.map (fun fp => rpemCritScore fp.2 (jget regulation fp.1))).sum +
  (important_fields.map (fun fp => rpemImpScore fp.2 (jget regulation fp.1))).sum +
  (supplementary_fields.map (fun fp => rpemSuppScore fp.2 (jget regulation fp.1))).sum

/-- Strength messages of the RPEM critical loop. -/
def rpemCritStrengths (regulation : RegRecord) : List String :=
  critical_fields.filterMap (fun fp =>
    if (jget regulation fp.1).truthy && !inBlankListCrit (jget regulation fp.1) then
      some ("✓ Has " ++ fp.1)
    else none)

/-- Issue messages of the RPEM critical loop. -/
def rpemCritIssues (regulation : RegRecord) : List String :=
  critical_fields.filterMap (fun fp =>
    if (jget regulation fp.1).truthy && !inBlankListCrit (jget regulation fp.1) then none
    else some ("✗ Missing: " ++ fp.1))

/-- Issue messages of the RPEM important loop. -/
def rpemImpIssues (regulation : RegRecord) : List String :=
  important_fields.filterMap (fun fp =>
    if (jget regulation fp.1).truthy && !inBlankListShort (jget regulation fp.1) then none
    else some ("⚠ Missing: " ++ fp.1))

/-- The assessment dict returned by RPEM.calculate_quality_score. -/
structure RpemQuality where
  score : ℚ
  max_score : ℚ
  percentage : ℚ
  recommendation : String
  status : String
  issues : List String
  strengths : List String

/-- RPEM.calculate_quality_score: the simple proportional scorer.  The
returned score and percentage are the raw score rounded to one decimal;
the recommendation thresholds compare the raw score. -/
def calculate_quality_score (regulation : RegRecord) : RpemQuality :=
  let score := rpemRawScore regulation
  { score := roundTo1 score
    max_score := 100
    percentage := roundTo1 score
    recommendation := if score ≥ 70 then "KEEP" else if score ≥ 40 then "REVIEW" else "DISCARD"
    status := if score ≥ 70 then "🟢" else if score ≥ 40 then "🟡" else "🔴"
    issues := rpemCritIssues regulation ++ rpemImpIssues regulation
    strengths := rpemCritStrengths regulation }

/-- Stricter critical-field contribution of
calculate_regulation_quality_score: a dict earns full points only when it
has at least one populated sub-value. -/
def fltCritScore (points : ℚ) (value : JVal) : ℚ :=
  if value.truthy && !inBlankListCrit value then
    match value with
    | .obj fields => if subNonNull fields > 0 then points else 0
    | _ => points
  else 0

/-- Stricter important-field contribution: proportional credit with the
sentinel list extended by the empty list. -/
def fltImpScore (points : ℚ) (value : JVal) : ℚ :=
  if value.truthy && !inBlankListShort value then
    match value with
    | .obj fields =>
        if fields.length > 0 then points * ((subNonNullF fields : ℚ) / (fields.length : ℚ))
        else 0
    | .arr items => if items.length > 0 then points else 0
    | _ => points
  else 0

/-- Stricter supplementary-field contribution: sub-field density capped at
two sub-fields for full points. -/
def fltSuppScore (points : ℚ) (value : JVal) : ℚ :=
  if value.truthy && !inBlankListShort value then
    match value with
    | .obj fields =>
        if subNonNullF fields > 0 then points * min 1 ((subNonNullF fields : ℚ) / 2)
        else 0
    | _ => points
  else 0

/-- Sentinel test of count_nulls on dict values:
[None, "null", "", "N/A", "Unknown", []]. -/
def nullSentinelDict : JVal → Bool
  | .null => true
  | .str s => s == "null" || s == "" || s == "N/A" || s == "Unknown"
  | .arr items => items.isEmpty
  | _ => false

/-- Sentinel test of count_nulls on list items: [None, "null", "", "N/A"]. -/
def nullSentinelList : JVal → Bool
  | .null => true
  | .str s => s == "null" || s == "" || s == "N/A"
  | _ => false

mutual

/-- count_nulls over the values of a dict: sentinels count as one null
leaf, containers recurse with the depth incremented and cut beyond 5,
anything else counts as one populated leaf. -/
def countNullsFields : List (String × JVal) → ℕ → ℕ × ℕ
  | [], _ => (0, 0)
  | (_, v) :: rest, depth =>
    let r := countNullsFields rest depth
    if nullSentinelDict v then (r.1 + 1, r.2 + 1)
    else
      match v with
      | .obj fields =>
          let c := if depth + 1 > 5 then (0, 0) else countNullsFields fields (depth + 1)
          (r.1 + c.1, r.2 + c.2)
      | .arr items =>
          let c := if depth + 1 > 5 then (0, 0) else countNullsItems items (depth + 1)
          (r.1 + c.1, r.2 + c.2)
      | _ => (r.1, r.2 + 1)

/-- count_nulls over the items of a list: containers recurse first, then
sentinels count as null leaves, anything else as a populated leaf. -/
def countNullsItems : List JVal → ℕ → ℕ × ℕ
  | [], _ => (0, 0)
  | v :: rest, depth =>
    let r := countNullsItems rest depth
    match v with
    | .obj fields =>
        let c := if depth + 1 > 5 then (0, 0) else countNullsFields fields (depth + 1)
        (r.1 + c.1, r.2 + c.2)
    | .arr items =>
        let c := if depth + 1 > 5 then (0, 0) else countNullsItems items (depth + 1)
        (r.1 + c.1, r.2 + c.2)
    | _ => if nullSentinelList v then (r.1 + 1, r.2 + 1) else (r.1, r.2 + 1)

end

/-- count_nulls(regulation): (null leaves, total leaves) of the record. -/
def count_nulls (regulation : RegRecord) : ℕ × ℕ :=
  countNullsFields regulation 0

/-- The raw tier total of calculate_regulation_quality_score before the
null-ratio penalty. -/
def fltRawScore (regulation : RegRecord) : ℚ :=
  (critical_fields.map (fun fp => fltCritScore fp.2 (jget regulation fp.1))).sum +
  (important_fields.map (fun fp => fltImpScore fp.2 (jget regulation fp.1))).sum +
  (supplementary_fields.map (fun fp => fltSuppScore fp.2 (jget regulation fp.1))).sum

/-- null_ratio: fraction of blank leaves, 1 when the record has no leaves. -/
def flt_null_ratio (regulation : RegRecord) : ℚ :=
  if (count_nulls regulation).2 > 0 then
    ((count_nulls regulation).1 : ℚ) / ((count_nulls regulation).2 : ℚ)
  else 1

/-- The penalised score: subtract 20 when more than 70 percent of the
leaves are blank, 10 when more than 50 percent, floored at 0. -/
def fltScore (regulation : RegRecord) : ℚ :=
  if flt_null_ratio regulation > 7/10 then max 0 (fltRawScore regulation - 20)
  else if flt_null_ratio regulation > 1/2 then max 0 (fltRawScore regulation - 10)
  else fltRawScore regulation

/-- Strength messages of the stricter critical loop. -/
def fltCritStrengths (regulation : RegRecord) : List String :=
  critical_fields.filterMap (fun fp =>
    if (jget regulation fp.1).truthy && !inBlankListCrit (jget regulation fp.1) then
      match jget regulation fp.1 with
      | .obj fields => if subNonNull fields > 0 then some ("✓ " ++ fp.1 ++ " is present") else none
      | _ => some ("✓ " ++ fp.1 ++ " is present")
    else none)

/-- Issue messages of the stricter critical loop. -/
def fltCritIssues (regulation : RegRecord) : List String :=
  critical_fields.filterMap (fun fp =>
    if (jget regulation fp.1).truthy && !inBlankListCrit (jget regulation fp.1) then
      match jget regulation fp.1 with
      | .obj fields =>
          if subNonNull fields > 0 then none else some ("✗ " ++ fp.1 ++ " is empty dict")
      | _ => none
    else some ("✗ Missing critical field: " ++ fp.1))

/-- Strength messages of the stricter important loop; the completeness
percentage int(non_null / total * 100) is the integer part of the exact
ratio. -/
def fltImpStrengths (regulation : RegRecord) : List String :=
  important_fields.filterMap (fun fp =>
    if (jget regulation fp.1).truthy && !inBlankListShort (jget regulation fp.1) then
      match jget regulation fp.1 with
      | .obj fields =>
          if fields.length > 0 ∧ fields.length ≤ subNonNullF fields * 2 then
            some ("✓ " ++ fp.1 ++ " is " ++ toString ((subNonNullF fields * 100) / fields.length)
              ++ "% complete")
          else none
      | .arr items =>
          if items.length > 0 then
            some ("✓ " ++ fp.1 ++ " has " ++ toString items.length ++ " items")
          else none
      | _ => none
    else none)

/-- Issue messages of the stricter important loop. -/
def fltImpIssues (regulation : RegRecord) : List String :=
  important_fields.filterMap (fun fp =>
    if (jget regulation fp.1).truthy && !inBlankListShort (jget regulation fp.1) then
      match jget regulation fp.1 with
      | .obj fields =>
          if fields.length > 0 ∧ subNonNullF fields * 2 < fields.length then
            some ("⚠ " ++ fp.1 ++ " is only "
              ++ toString ((subNonNullF fields * 100) / fields.length) ++ "% complete")
          else none
      | _ => none
    else some ("⚠ Missing important field: " ++ fp.1))

/-- The integer percentage of blank leaves reported in the penalty
messages. -/
def fltNullPct (regulation : RegRecord) : ℕ :=
  if (count_nulls regulation).2 > 0 then
    ((count_nulls regulation).1 * 100) / (count_nulls regulation).2
  else 100

/-- The penalty messages appended after the tier loops. -/
def fltPenaltyIssues (regulation : RegRecord) : List String :=
  if flt_null_ratio regulation > 7/10 then
    ["✗ Too many null values (" ++ toString (fltNullPct regulation) ++ "% empty)"]
  else if flt_null_ratio regulation > 1/2 then
    ["⚠ Many null values (" ++ toString (fltNullPct regulation) ++ "% empty)"]
  else []

/-- The assessment dict returned by calculate_regulation_quality_score. -/
structure FilterQuality where
  score : ℚ
  max_score : ℚ
  percentage : ℚ
  null_ratio : ℚ
  recommendation : String
  status : String
  issues : List String
  strengths : List String

/-- filter_regulations_funcs.calculate_regulation_quality_score: the
null-ratio-penalised scorer. -/
def calculate_regulation_quality_score (regulation : RegRecord) : FilterQuality :=
  let score := fltScore regulation
  { score := roundTo1 score
    max_score := 100
    percentage := roundTo1 (score / 100 * 100)
    null_ratio := roundTo1 (flt_null_ratio regulation * 100)
    recommendation := if score ≥ 70 then "KEEP" else if score ≥ 40 then "REVIEW" else "DISCARD"
    status := if score ≥ 70 then "🟢" else if score ≥ 40 then "🟡" else "🔴"
    issues := fltCritIssues regulation ++ fltImpIssues regulation ++ fltPenaltyIssues regulation
    strengths := fltCritStrengths regulation ++ fltImpStrengths regulation }

/-- The top-level field values on which the simple scorer awards zero
points in every tier: the falsy values (None, False, 0, empty string,
empty containers) and the string literal null.  The blank sentinels
"N/A" and "Unknown" are deliberately not in this set: the code scores
them as populated scalars outside the critical tier. -/
def isBlankSimple : JVal → Bool
  | .str s => s == "null" || s == ""
  | v => !v.truthy

/-! ## RPEM.py: split_into_sections

The source splits on the unanchored Python regex (#+\s.*) and then treats
every piece that starts with a hash mark as a section title.  The regex is
modelled exactly: a match is a maximal run of hash marks whose next
character is whitespace, followed by that whitespace character and the
remainder of the line; matches are found leftmost and non-overlapping,
anywhere in the text, not only at line starts. -/

/-- The characters matched by the regex class backslash-s (and stripped by
str.strip) on Python unicode strings. -/
def isPySpace (c : Char) : Bool :=
  c == ' ' || c == '\t' || c == '\n' || c == '\r' || c == '\x0b' || c == '\x0c' ||
  c == '\x1c' || c == '\x1d' || c == '\x1e' || c == '\x1f' || c == '\x85' || c == '\xa0' ||
  c == '\u1680' || (decide ('\u2000' ≤ c) && decide (c ≤ '\u200A')) ||
  c == '\u2028' || c == '\u2029' || c == '\u202F' || c == '\u205F' || c == '\u3000'

/-- Python str.strip(): drop leading and trailing whitespace. -/
def strip (l : List Char) : List Char :=
  ((l.dropWhile isPySpace).reverse.dropWhile isPySpace).reverse

/-- Python s.startswith of a single hash mark. -/
def startswithHash (l : List Char) : Bool := l.head? == some '#'

/-- Try to match the regex (#+\s.*) exactly at the start of l: one or more
hash marks, one whitespace character, then greedily everything up to the
next newline.  Returns the matched text and the remainder. -/
def matchAt (l : List Char) : Option (List Char × List Char) :=
  if startswithHash l then
    match l.dropWhile (fun c => c == '#') with
    | [] => none
    | c :: tail =>
      if isPySpace c then
        some (l.takeWhile (fun c => c == '#') ++ c :: tail.takeWhile (fun c => c != '\n'),
              tail.dropWhile (fun c => c != '\n'))
      else none
  else none

/-- The leftmost regex match in l: the text before it, the match, and the
remainder after it. -/
def findMatch : List Char → Option (List Char × List Char × List Char)
  | [] => none
  | c :: cs =>
    match matchAt (c :: cs) with
    | some (m, r) => some ([], m, r)
    | none =>
      match findMatch cs with
      | some (p, m, r) => some (c :: p, m, r)
      | none => none

/-- Scanning loop of re.split with a fuel bound (every match consumes at
least two characters, so the input length is enough fuel). -/
def splitPartsAux : ℕ → List Char → List (List Char)
  | 0, l => [l]
  | fuel + 1, l =>
    match findMatch l with
    | none => [l]
    | some (p, m, r) => p :: m :: splitPartsAux fuel r

/-- Python re.split with the whole pattern as one capture group: the texts
between matches interleaved with the matched groups. -/
def splitParts (l : List Char) : List (List Char) := splitPartsAux l.length l

/-- One produced section: title and content. -/
structure MdSection where
  title : List Char
  content : List Char
deriving DecidableEq

/-- Appending a finished section: Python tests the title for truthiness,
so an empty title emits nothing. -/
def emitSection (t : List Char) (content : List Char) : List MdSection :=
  if t.isEmpty then [] else [{ title := t, content := strip content }]

/-- The accumulation loop of split_into_sections over the parts: a part
starting with a hash flushes the current section and becomes the next
title, any other part is appended to the current content. -/
def sectionsLoop : List (List Char) → Option (List Char) → List Char → List MdSection
  | [], curTitle, curContent =>
    (match curTitle with
     | some t => emitSection t curContent
     | none => [])
  | p :: ps, curTitle, curContent =>
    if startswithHash p then
      (match curTitle with
       | some t => emitSection t curContent
       | none => []) ++ sectionsLoop ps (some (strip p)) []
    else
      sectionsLoop ps curTitle (curContent ++ p)

/-- RPEM.split_into_sections on the characters of the markdown text. -/
def split_into_sections (markdown_text : List Char) : List MdSection :=
  sectionsLoop (splitParts markdown_text) none []

/-- The lines of a text, split on newline characters. -/
def linesOf : List Char → List (List Char)
  | [] => [[]]
  | c :: cs =>
    if c = '\n' then [] :: linesOf cs
    else
      match linesOf cs with
      | [] => [[c]]
      | h :: t => (c :: h) :: t

/-- Modelled from the words of claim C5: a header line begins with one or
more hash marks followed by whitespace. -/
def isHeaderLine (line : List Char) : Bool :=
  startswithHash line &&
    (match line.dropWhile (fun c => c == '#') with
     | c :: _ => isPySpace c
     | [] => false)

/-- Modelled from the words of claim C5: the input contains a header line. -/
def hasHeaderLine (l : List Char) : Bool := (linesOf l).any isHeaderLine

/-- Whether the regex matches anywhere in the text. -/
def hasMatchIn : List Char → Bool
  | [] => false
  | c :: cs => (matchAt (c :: cs)).isSome || hasMatchIn cs

/-! ## Concrete inputs used by witnesses and counterexamples -/

def c1_reg_example : RegRecord :=
  [("regulation_id", JVal.str "GDPR Article 8"),
   ("regulation_name", JVal.str "Age of consent")]

def c1_resp_example : CCMResult :=
  { contradiction_found := some true
    has_relevant_information := some true
    confidence_score := some (9/10)
    compliance_status := some "COMPLIANT" }

def compliantResult : CCMResult := { compliance_status := some "COMPLIANT" }

def nonCompliantResult : CCMResult := { compliance_status := some "NON_COMPLIANT" }

def c8_results_example : List CCMResult :=
  [compliantResult, compliantResult, nonCompliantResult,
   { compliance_status := some "HUMAN_REQUIRED" }]

def c9_results_example : List CCMResult :=
  [compliantResult, compliantResult, nonCompliantResult]

def dupRegA : RegRecord :=
  [("regulation_id", JVal.str "GDPR Article 5"), ("regulation_name", JVal.str "Principles")]

def dupRegB : RegRecord :=
  [("regulation_id", JVal.str "GDPR Article 5"),
   ("regulation_name", JVal.str "Principles, detailed")]

def c3_regs : List RegRecord := [dupRegA, dupRegB]

/-- An oracle that nominates index 0 for deletion twice, in two pairs. -/
def c3_oracle : List RegSummary → Option (List DupPair) :=
  fun _ => some [⟨0, 1, "GDPR Article 5", "same article"⟩,
                 ⟨0, 1, "GDPR Article 5", "repeated nomination"⟩]

/-- An oracle reporting a single pair whose delete index is the negative
integer -1: it passes the one-sided bounds check -1 < len, so it is
logged, yet no enumerate position equals -1, so nothing is removed. -/
def c3_neg_oracle : List RegSummary → Option (List DupPair) :=
  fun _ => some [⟨-1, 0, "GDPR Article 5", "spurious negative index"⟩]

/-- An oracle that reports the single pair (delete 0, keep 1). -/
def single_pair_oracle : List RegSummary → Option (List DupPair) :=
  fun _ => some [⟨0, 1, "GDPR Article 5", "overview copy"⟩]

def c10_regs : List RegRecord := [dupRegA]

/-- An oracle that always fails; it is never called in the degenerate case. -/
def c10_oracle : List RegSummary → Option (List DupPair) := fun _ => none

/-- A record whose jurisdiction holds the blank sentinel "N/A". -/
def c6_reg1 : RegRecord := [("jurisdiction", JVal.str "N/A")]

/-- The same record with the blank "N/A" replaced by a non-blank value: a
non-empty dict whose only sub-field is null. -/
def c6_reg2 : RegRecord := [("jurisdiction", JVal.obj [("geographic_scope", JVal.null)])]

/-! ## Helper lemmas on rounding -/

theorem roundHalfEven_nonneg {q : ℚ} (h : 0 ≤ q) : 0 ≤ roundHalfEven q := by
  have hn : (0:ℤ) ≤ ⌊q⌋ := Int.floor_nonneg.mpr h
  unfold roundHalfEven
  split_ifs <;> omega

theorem roundHalfEven_le {q : ℚ} {C : ℤ} (h : q ≤ C) : roundHalfEven q ≤ C := by
  have hn : ⌊q⌋ ≤ C := by
    have := Int.floor_le_floor h
    rwa [Int.floor_intCast] at this
  have hq : (⌊q⌋ : ℚ) ≤ q := Int.floor_le q
  unfold roundHalfEven
  split_ifs with h1 h2 h3
  · exact hn
  · rcases lt_or_eq_of_le hn with hlt | heq
    · omega
    · exfalso
      rw [heq] at h2
      have : (C : ℚ) + 1/2 < (C : ℚ) := by linarith
      linarith
  · exact hn
  · rcases lt_or_eq_of_le hn with hlt | heq
    · omega
    · exfalso
      rw [heq] at h1
      push_neg at h1
      have : (C : ℚ) + 1/2 ≤ (C : ℚ) := by linarith
      linarith

theorem roundHalfEven_mono {x y : ℚ} (h : x ≤ y) : roundHalfEven x ≤ roundHalfEven y := by
  have hbx : ⌊x⌋ ≤ roundHalfEven x ∧ roundHalfEven x ≤ ⌊x⌋ + 1 := by
    unfold roundHalfEven; split_ifs <;> omega
  have hby : ⌊y⌋ ≤ roundHalfEven y ∧ roundHalfEven y ≤ ⌊y⌋ + 1 := by
    unfold roundHalfEven; split_ifs <;> omega
  rcases lt_or_eq_of_le (Int.floor_le_floor h) with hlt | heq
  · calc roundHalfEven x ≤ ⌊x⌋ + 1 := hbx.2
      _ ≤ ⌊y⌋ := by omega
      _ ≤ roundHalfEven y := hby.1
  · unfold roundHalfEven
    rw [← heq]
    split_ifs <;> first | omega | (exfalso; linarith)

theorem roundTo1_nonneg {q : ℚ} (h : 0 ≤ q) : 0 ≤ roundTo1 q := by
  unfold roundTo1
  apply div_nonneg _ (by norm_num)
  exact_mod_cast roundHalfEven_nonneg (by linarith : (0:ℚ) ≤ 10 * q)

theorem roundTo1_le_hundred {q : ℚ} (h : q ≤ 100) : roundTo1 q ≤ 100 := by
  have h10 : (10:ℚ) * q ≤ ((1000 : ℤ) : ℚ) := by push_cast; linarith
  have hb := roundHalfEven_le h10
  unfold roundTo1
  rw [div_le_iff₀ (by norm_num : (0:ℚ) < 10)]
  calc ((roundHalfEven (10 * q)) : ℚ) ≤ ((1000 : ℤ) : ℚ) := by exact_mod_cast hb
    _ = 100 * 10 := by norm_num

theorem roundTo1_mono {x y : ℚ} (h : x ≤ y) : roundTo1 x ≤ roundTo1 y := by
  unfold roundTo1
  have hm : roundHalfEven (10 * x) ≤ roundHalfEven (10 * y) :=
    roundHalfEven_mono (by linarith)
  have := (div_le_div_iff_of_pos_right (c := (10:ℚ)) (by norm_num)).mpr
    (show ((roundHalfEven (10*x) : ℚ)) ≤ ((roundHalfEven (10*y) : ℚ)) by exact_mod_cast hm)
  exact this

theorem roundTo1_zero : roundTo1 0 = 0 := by
  simp [roundTo1, roundHalfEven]

theorem roundTo1_eq_low (q : ℚ) (n : ℤ) (h1 : (n : ℚ) ≤ 10 * q)
    (h2 : 10 * q < (n : ℚ) + 1/2) : roundTo1 q = (n : ℚ) / 10 := by
  have hf : ⌊10 * q⌋ = n := Int.floor_eq_iff.mpr ⟨h1, by linarith⟩
  unfold roundTo1 roundHalfEven
  rw [hf, if_pos (by linarith)]

theorem roundTo1_eq_high (q : ℚ) (n : ℤ) (h1 : (n : ℚ) + 1/2 < 10 * q)
    (h2 : 10 * q < (n : ℚ) + 1) : roundTo1 q = ((n : ℚ) + 1) / 10 := by
  have hf : ⌊10 * q⌋ = n := Int.floor_eq_iff.mpr ⟨by linarith, by linarith⟩
  unfold roundTo1 roundHalfEven
  rw [hf, if_neg (by linarith), if_pos (by linarith)]
  push_cast
  ring_nf

/-! ## Claims about CCM.py -/

/-- C1: for every successfully parsed oracle response, the final
compliance_status is re-derived from the three underlying signals with
strict precedence (contradiction_found, then has_relevant_information, then
confidence_score against 0.7), and the status string proposed by the oracle
itself never influences the result. -/
theorem c1_classifier_precedence (regulation : RegRecord) (proposal : String)
    (resp : CCMResult) :
    (resp.contradiction_found.getD false = true →
      (check_regulation_compliance regulation proposal (.ok resp)).compliance_status =
        some "NON_COMPLIANT") ∧
    (resp.contradiction_found.getD false = false →
      resp.has_relevant_information.getD true = false →
      (check_regulation_compliance regulation proposal (.ok resp)).compliance_status =
        some "INSUFFICIENT_INFORMATION") ∧
    (resp.contradiction_found.getD false = false →
      resp.has_relevant_information.getD true = true →
      resp.confidence_score.getD (1/2) < 7/10 →
      (check_regulation_compliance regulation proposal (.ok resp)).compliance_status =
        some "HUMAN_REQUIRED") ∧
    (resp.contradiction_found.getD false = false →
      resp.has_relevant_information.getD true = true →
      ¬ resp.confidence_score.getD (1/2) < 7/10 →
      (check_regulation_compliance regulation proposal (.ok resp)).compliance_status =
        some "COMPLIANT") ∧
    (∀ s : Option String,
      (check_regulation_compliance regulation proposal
          (.ok { resp with compliance_status := s })).compliance_status =
      (check_regulation_compliance regulation proposal (.ok resp)).compliance_status) := by
  refine ⟨?_, ?_, ?_, ?_, ?_⟩
  · intro h1
    simp [check_regulation_compliance, h1]
  · intro h1 h2
    simp [check_regulation_compliance, h1, h2]
  · intro h1 h2 h3
    simp [check_regulation_compliance, h1, h2]
    simpa using h3
  · intro h1 h2 h3
    simp [check_regulation_compliance, h1, h2]
    simpa using not_lt.mp h3
  · intro s
    simp [check_regulation_compliance]

theorem c1_classifier_precedence_witness :
    (check_regulation_compliance c1_reg_example "doc" (.ok c1_resp_example)).compliance_status =
      some "NON_COMPLIANT" :=
  (c1_classifier_precedence c1_reg_example "doc" c1_resp_example).1 (by decide)

/-- C2: when the oracle call raises, check_regulation_compliance returns
(rather than raises) a fail-open result for any regulation record: status
COMPLIANT, the error text embedded in the explanation, the error field set
to the message, and regulation_id and regulation_name populated from the
input regulation via regulation.get with the defaults N/A and Unknown (a
present value is carried through whatever it is, including None). -/
theorem c2_fail_open (regulation : RegRecord) (proposal : String) (e : String) :
    (check_regulation_compliance regulation proposal (.error e)).compliance_status =
      some "COMPLIANT" ∧
    (check_regulation_compliance regulation proposal (.error e)).explanation =
      some ("Error during analysis: " ++ e) ∧
    (∃ p, (check_regulation_compliance regulation proposal (.error e)).explanation =
      some (p ++ e)) ∧
    (check_regulation_compliance regulation proposal (.error e)).error = some e ∧
    (check_regulation_compliance regulation proposal (.error e)).contradiction_found =
      some false ∧
    (check_regulation_compliance regulation proposal (.error e)).regulation_id =
      some (jgetD regulation "regulation_id" (.str "N/A")) ∧
    (check_regulation_compliance regulation proposal (.error e)).regulation_name =
      some (jgetD regulation "regulation_name" (.str "Unknown")) :=
  ⟨rfl, rfl, ⟨"Error during analysis: ", rfl⟩, rfl, rfl, rfl, rfl⟩

/-- A result list all of whose members carry one of the four classifier
statuses, as the data model of a ComplianceResult prescribes. -/
def WellStatused (results : List CCMResult) : Prop :=
  ∀ r ∈ results,
    r.compliance_status = some "COMPLIANT" ∨
    r.compliance_status = some "NON_COMPLIANT" ∨
    r.compliance_status = some "INSUFFICIENT_INFORMATION" ∨
    r.compliance_status = some "HUMAN_REQUIRED"

instance (results : List CCMResult) : Decidable (WellStatused results) := by
  unfold WellStatused; infer_instance

theorem countP_status_partition (results : List CCMResult) (h : WellStatused results) :
    results.countP (fun r => r.compliance_status == some "COMPLIANT") +
    results.countP (fun r => r.compliance_status == some "NON_COMPLIANT") +
    results.countP (fun r => r.compliance_status == some "INSUFFICIENT_INFORMATION") +
    results.countP (fun r => r.compliance_status == some "HUMAN_REQUIRED") =
    results.length := by
  induction results with
  | nil => simp
  | cons r rs ih =>
    have hr := h r (List.mem_cons_self r rs)
    have hrs : WellStatused rs := fun x hx => h x (List.mem_cons_of_mem r hx)
    have ih' := ih hrs
    rcases hr with h1 | h1 | h1 | h1 <;>
      simp [List.countP_cons, h1] <;> omega

/-- C8: the four per-status counts in the report summary always partition
the input list, so compliant + non_compliant + insufficient_info +
human_required = total. -/
theorem c8_report_counts_partition (results : List CCMResult) (h : WellStatused results) :
    (generate_compliance_report results).summary.compliant +
    (generate_compliance_report results).summary.non_compliant +
    (generate_compliance_report results).summary.insufficient_info +
    (generate_compliance_report results).summary.human_required =
    (generate_compliance_report results).summary.total := by
  simpa [generate_compliance_report] using countP_status_partition results h

theorem c8_report_counts_partition_witness :
    (generate_compliance_report c8_results_example).summary.compliant +
    (generate_compliance_report c8_results_example).summary.non_compliant +
    (generate_compliance_report c8_results_example).summary.insufficient_info +
    (generate_compliance_report c8_results_example).summary.human_required =
    (generate_compliance_report c8_results_example).summary.total :=
  c8_report_counts_partition c8_results_example (by decide)

/-- C9: the compliance rate is compliant / (compliant + non_compliant) x 100
rounded to one decimal whenever at least one definitive (COMPLIANT or
NON_COMPLIANT) result exists, and 0 when there are no definitive results;
non-definitive statuses are excluded from the denominator. -/
theorem c9_compliance_rate (results : List CCMResult) :
    ((generate_compliance_report results).summary.compliant +
        (generate_compliance_report results).summary.non_compliant ≠ 0 →
      (generate_compliance_report results).summary.compliance_rate =
        roundTo1 (((generate_compliance_report results).summary.compliant : ℚ) /
          (((generate_compliance_report results).summary.compliant : ℚ) +
            ((generate_compliance_report results).summary.non_compliant : ℚ)) * 100)) ∧
    ((generate_compliance_report results).summary.compliant +
        (generate_compliance_report results).summary.non_compliant = 0 →
      (generate_compliance_report results).summary.compliance_rate = 0) := by
  constructor
  · intro h
    simp only [generate_compliance_report] at h ⊢
    rw [if_pos (Nat.pos_of_ne_zero h)]
    push_cast
    ring_nf
  · intro h
    simp only [generate_compliance_report] at h ⊢
    rw [if_neg (by omega)]
    exact roundTo1_zero

theorem c9_compliance_rate_witness :
    (generate_compliance_report c9_results_example).summary.compliance_rate =
      roundTo1 (((generate_compliance_report c9_results_example).summary.compliant : ℚ) /
        (((generate_compliance_report c9_results_example).summary.compliant : ℚ) +
          ((generate_compliance_report c9_results_example).summary.non_compliant : ℚ)) * 100) ∧
    (generate_compliance_report c9_results_example).summary.compliance_rate = 667/10 := by
  refine ⟨(c9_compliance_rate c9_results_example).1 (by decide), ?_⟩
  have h1 := (c9_compliance_rate c9_results_example).1 (by decide)
  have hc : (generate_compliance_report c9_results_example).summary.compliant = 2 := by decide
  have hn : (generate_compliance_report c9_results_example).summary.non_compliant = 1 := by decide
  have harg : (((2:ℕ) : ℚ)) / (((2:ℕ) : ℚ) + ((1:ℕ) : ℚ)) * 100 = 200/3 := by norm_num
  rw [h1, hc, hn, harg,
    roundTo1_eq_high (200/3) 666 (by norm_num) (by norm_num)]
  norm_num

/-! ## Claims about merge_regulations.py -/

theorem merge_core_cleaned_eq (regulations : List RegRecord) (ds : List DupPair)
    (hv : ∀ d ∈ ds, d.delete_index < (regulations.length : ℤ) ∧
      d.keep_index < (regulations.length : ℤ)) :
    (merge_core regulations ds).1 =
      removeIndices regulations (ds.map (fun d => d.delete_index)) := by
  simp only [merge_core, removeIndices]
  have hfilter : ds.filter (validPair regulations.length) = ds := by
    apply List.filter_eq_self.mpr
    intro d hd
    rcases hv d hd with ⟨h1, h2⟩
    simp [validPair, h1, h2]
  rw [hfilter]

theorem removeIndices_nil (regulations : List RegRecord) :
    removeIndices regulations [] = regulations := by
  unfold removeIndices
  have hall : ∀ p ∈ regulations.enum, (!decide ((p.1 : ℤ) ∈ ([] : List ℤ))) = true := by
    intro p _
    simp
  rw [List.filter_eq_self.mpr hall]
  exact List.enum_map_snd regulations

/-- C4: whenever every pair accumulated from the oracle carries valid
indices into the original list (non-negative and below its length on both
sides), the cleaned list is exactly the original list with the union of
all nominated delete indices removed, in original order; and the union
removal itself only depends on which indices are nominated, not on how
often or by which pairs. -/
theorem c4_cleaned_is_union_removal (regulations : List RegRecord) (api_key : String)
    (oracle : List RegSummary → Option (List DupPair)) (batch_size : ℕ)
    (hv : ∀ d ∈ all_deletions_of regulations oracle batch_size,
      0 ≤ d.delete_index ∧ d.delete_index < (regulations.length : ℤ) ∧
      0 ≤ d.keep_index ∧ d.keep_index < (regulations.length : ℤ)) :
    (merge_duplicate_regulations regulations api_key oracle batch_size).1 =
      removeIndices regulations
        ((all_deletions_of regulations oracle batch_size).map (fun d => d.delete_index)) ∧
    ∀ idxs idxs' : List ℤ, (∀ i, i ∈ idxs ↔ i ∈ idxs') →
      removeIndices regulations idxs = removeIndices regulations idxs' := by
  constructor
  · by_cases hlen : regulations.length ≤ 1
    · have hd : all_deletions_of regulations oracle batch_size = [] := by
        unfold all_deletions_of
        rw [if_pos hlen]
      rw [hd]
      unfold merge_duplicate_regulations
      rw [if_pos hlen]
      simpa using (removeIndices_nil regulations).symm
    · unfold merge_duplicate_regulations
      rw [if_neg hlen]
      exact merge_core_cleaned_eq regulations _
        (fun d hd => ⟨(hv d hd).2.1, (hv d hd).2.2.2⟩)
  · intro idxs idxs' hmem
    unfold removeIndices
    congr 1
    apply List.filter_congr
    intro p _
    rw [decide_eq_decide.mpr (hmem (p.1 : ℤ))]

theorem c4_cleaned_is_union_removal_witness :
    (merge_duplicate_regulations c3_regs "key" single_pair_oracle 50).1 =
      removeIndices c3_regs
        ((all_deletions_of c3_regs single_pair_oracle 50).map (fun d => d.delete_index)) :=
  (c4_cleaned_is_union_removal c3_regs "key" single_pair_oracle 50 (by decide)).1

/-- C3 counterexample, in two failure modes.  Two oracle pairs nominating
the same delete index produce a deletion log of length two but remove one
record; and one pair with the delete index -1 passes the one-sided bounds
check delete_idx < len and is logged, but removes nothing because the
enumerate positions are non-negative.  In both runs cleaned_count +
duplicates_removed differs from original_count. -/
theorem c3_counterexample :
    (¬ ((deduplicate_regulations c3_regs "key" c3_oracle).summary.cleaned_count +
        (deduplicate_regulations c3_regs "key" c3_oracle).summary.duplicates_removed =
        (deduplicate_regulations c3_regs "key" c3_oracle).summary.original_count)) ∧
    (¬ ((deduplicate_regulations c3_regs "key" c3_neg_oracle).summary.cleaned_count +
        (deduplicate_regulations c3_regs "key" c3_neg_oracle).summary.duplicates_removed =
        (deduplicate_regulations c3_regs "key" c3_neg_oracle).summary.original_count)) := by
  constructor
  · decide
  · decide

theorem range_filter_not_mem_length (n : ℕ) (L : List ℕ) (hnd : L.Nodup)
    (hb : ∀ x ∈ L, x < n) :
    ((List.range n).filter (fun i => !decide (i ∈ L))).length + L.length = n := by
  have hp := (List.filter_append_perm (fun i => decide (i ∈ L)) (List.range n)).length_eq
  rw [List.length_append, List.length_range] at hp
  have hL : ((List.range n).filter (fun i => decide (i ∈ L))).length = L.length := by
    have hperm : List.Perm ((List.range n).filter (fun i => decide (i ∈ L))) L := by
      refine (List.perm_ext_iff_of_nodup ((List.nodup_range n).filter _) hnd).mpr ?_
      intro a
      simp only [List.mem_filter, List.mem_range, decide_eq_true_eq]
      exact ⟨fun hx => hx.2, fun hx => ⟨hb a hx, hx⟩⟩
    exact hperm.length_eq
  omega

theorem merge_core_length_add (regulations : List RegRecord) (ds : List DupPair)
    (hnd : ((ds.filter (validPair regulations.length)).map (fun d => d.delete_index)).Nodup)
    (hpos : ∀ d ∈ ds.filter (validPair regulations.length), 0 ≤ d.delete_index) :
    (merge_core regulations ds).1.length + (merge_core regulations ds).2.length =
      regulations.length := by
  simp only [merge_core, List.length_map]
  have hmemL : ∀ x ∈ (ds.filter (validPair regulations.length)).map
      (fun d => d.delete_index), 0 ≤ x ∧ x < (regulations.length : ℤ) := by
    intro x hx
    rcases List.mem_map.mp hx with ⟨d, hd, hdx⟩
    have h2 := (List.mem_filter.mp hd).2
    simp only [validPair, Bool.and_eq_true, decide_eq_true_eq] at h2
    have h0 := hpos d hd
    subst hdx
    exact ⟨h0, h2.1⟩
  have hndN : (((ds.filter (validPair regulations.length)).map
      (fun d => d.delete_index)).map Int.toNat).Nodup := by
    refine List.Nodup.map_on ?_ hnd
    intro x hx y hy hxy
    have hx0 := (hmemL x hx).1
    have hy0 := (hmemL y hy).1
    omega
  have hbN : ∀ a ∈ (((ds.filter (validPair regulations.length)).map
      (fun d => d.delete_index)).map Int.toNat), a < regulations.length := by
    intro a ha
    rcases List.mem_map.mp ha with ⟨x, hx, hxa⟩
    have hm := hmemL x hx
    omega
  have hiff : ∀ i : ℕ, ((i : ℤ) ∈ (ds.filter (validPair regulations.length)).map
        (fun d => d.delete_index)) ↔
      i ∈ (((ds.filter (validPair regulations.length)).map
        (fun d => d.delete_index)).map Int.toNat) := by
    intro i
    constructor
    · intro h
      exact List.mem_map.mpr ⟨(i : ℤ), h, by omega⟩
    · intro h
      rcases List.mem_map.mp h with ⟨x, hx, hxi⟩
      have h0 := (hmemL x hx).1
      have hxeq : x = (i : ℤ) := by omega
      rwa [hxeq] at hx
  have henum :
      (regulations.enum.filter (fun p =>
        !decide ((p.1 : ℤ) ∈ (ds.filter (validPair regulations.length)).map
          (fun d => d.delete_index)))).length
      = ((List.range regulations.length).filter (fun i : ℕ =>
        !decide ((i : ℤ) ∈ (ds.filter (validPair regulations.length)).map
          (fun d => d.delete_index)))).length := by
    rw [← List.countP_eq_length_filter, ← List.countP_eq_length_filter,
      ← List.enum_map_fst, List.countP_map]
    rfl
  have hpred : (fun i : ℕ => !decide ((i : ℤ) ∈ (ds.filter
        (validPair regulations.length)).map (fun d => d.delete_index)))
      = (fun i : ℕ => !decide (i ∈ (((ds.filter (validPair regulations.length)).map
        (fun d => d.delete_index)).map Int.toNat))) := by
    funext i
    rw [decide_eq_decide.mpr (hiff i)]
  have hrange := range_filter_not_mem_length regulations.length
    (((ds.filter (validPair regulations.length)).map (fun d => d.delete_index)).map Int.toNat)
    hndN hbN
  rw [List.length_map, List.length_map] at hrange
  rw [henum, hpred]
  omega

/-- C3 amended: the count identity cleaned_count + duplicates_removed =
original_count holds for every run in which the pairs passing the bounds
check carry genuinely in-range indices (non-negative delete and keep
indices, so that no negative index is logged and no list access raises)
and nominate pairwise distinct delete indices.  The claim as stated fails
when several pairs nominate the same delete index, and also when a pair
carries a negative delete index, which passes the one-sided bounds check
and is logged yet removes no record. -/
theorem c3_amended_count_conservation (regulations : List RegRecord) (api_key : String)
    (oracle : List RegSummary → Option (List DupPair)) :
    (∀ batch_size, (validDeleteIndices regulations oracle batch_size).Nodup →
      (∀ i ∈ validDeleteIndices regulations oracle batch_size, 0 ≤ i) →
      (∀ i ∈ validKeepIndices regulations oracle batch_size, 0 ≤ i) →
      (merge_duplicate_regulations regulations api_key oracle batch_size).1.length +
        (merge_duplicate_regulations regulations api_key oracle batch_size).2.length =
        regulations.length) ∧
    ((validDeleteIndices regulations oracle 50).Nodup →
      (∀ i ∈ validDeleteIndices regulations oracle 50, 0 ≤ i) →
      (∀ i ∈ validKeepIndices regulations oracle 50, 0 ≤ i) →
      (deduplicate_regulations regulations api_key oracle).summary.cleaned_count +
        (deduplicate_regulations regulations api_key oracle).summary.duplicates_removed =
        (deduplicate_regulations regulations api_key oracle).summary.original_count) := by
  have hmain : ∀ batch_size, (validDeleteIndices regulations oracle batch_size).Nodup →
      (∀ i ∈ validDeleteIndices regulations oracle batch_size, 0 ≤ i) →
      (merge_duplicate_regulations regulations api_key oracle batch_size).1.length +
        (merge_duplicate_regulations regulations api_key oracle batch_size).2.length =
        regulations.length := by
    intro batch_size hnd hdel
    unfold validDeleteIndices at hnd hdel
    unfold merge_duplicate_regulations
    by_cases hlen : regulations.length ≤ 1
    · rw [if_pos hlen]
      simp
    · rw [if_neg hlen]
      refine merge_core_length_add regulations _ hnd ?_
      intro d hd
      exact hdel d.delete_index (List.mem_map.mpr ⟨d, hd, rfl⟩)
  exact ⟨fun batch_size hnd hdel _ => hmain batch_size hnd hdel,
    fun hnd hdel _ => by simpa [deduplicate_regulations] using hmain 50 hnd hdel⟩

theorem c3_amended_count_conservation_witness :
    (deduplicate_regulations c3_regs "key" single_pair_oracle).summary.cleaned_count +
      (deduplicate_regulations c3_regs "key" single_pair_oracle).summary.duplicates_removed =
      (deduplicate_regulations c3_regs "key" single_pair_oracle).summary.original_count :=
  (c3_amended_count_conservation c3_regs "key" single_pair_oracle).2
    (by decide) (by decide) (by decide)

/-- C10: a list with at most one regulation is returned unchanged with an
empty deletion log, and the degenerate branch returns before any batch is
built, so no oracle call is issued at all. -/
theorem c10_degenerate_short_circuit (regulations : List RegRecord) (api_key : String)
    (oracle : List RegSummary → Option (List DupPair)) (batch_size : ℕ)
    (h : regulations.length ≤ 1) :
    merge_duplicate_regulations regulations api_key oracle batch_size = (regulations, []) ∧
    merge_oracle_batches regulations batch_size = [] := by
  constructor
  · unfold merge_duplicate_regulations
    rw [if_pos h]
  · unfold merge_oracle_batches
    rw [if_pos h]

theorem c10_degenerate_short_circuit_witness :
    merge_duplicate_regulations c10_regs "key" c10_oracle 50 = (c10_regs, []) ∧
    merge_oracle_batches c10_regs 50 = [] :=
  c10_degenerate_short_circuit c10_regs "key" c10_oracle 50 (by decide)

/-! ## Claims about the quality scorers -/

theorem subNonNull_le_length (fields : List (String × JVal)) :
    subNonNull fields ≤ fields.length :=
  List.countP_le_length _

theorem subNonNullF_le_length (fields : List (String × JVal)) :
    subNonNullF fields ≤ fields.length :=
  List.countP_le_length _

theorem ratio_nonneg_le_one (a b : ℕ) (hab : a ≤ b) :
    0 ≤ ((a : ℚ) / ((max b 1 : ℕ) : ℚ)) ∧ ((a : ℚ) / ((max b 1 : ℕ) : ℚ)) ≤ 1 := by
  have hb : (0:ℚ) < ((max b 1 : ℕ) : ℚ) := by
    have h1 : (1:ℕ) ≤ max b 1 := le_max_right b 1
    exact_mod_cast Nat.lt_of_lt_of_le Nat.zero_lt_one h1
  constructor
  · exact div_nonneg (by positivity) hb.le
  · rw [div_le_one hb]
    have : a ≤ max b 1 := le_trans hab (le_max_left b 1)
    exact_mod_cast this

theorem rpemCritScore_bounds (p : ℚ) (hp : 0 ≤ p) (v : JVal) :
    0 ≤ rpemCritScore p v ∧ rpemCritScore p v ≤ p := by
  have hobj : ∀ fields : List (String × JVal),
      0 ≤ p * ((subNonNull fields : ℚ) / ((max fields.length 1 : ℕ) : ℚ)) ∧
      p * ((subNonNull fields : ℚ) / ((max fields.length 1 : ℕ) : ℚ)) ≤ p := by
    intro fields
    rcases ratio_nonneg_le_one (subNonNull fields) fields.length (subNonNull_le_length fields)
      with ⟨h0, h1⟩
    refine ⟨mul_nonneg hp h0, ?_⟩
    calc p * ((subNonNull fields : ℚ) / ((max fields.length 1 : ℕ) : ℚ)) ≤ p * 1 :=
          mul_le_mul_of_nonneg_left h1 hp
      _ = p := mul_one p
  cases v <;> simp only [rpemCritScore] <;> split_ifs <;>
    first
      | exact ⟨le_rfl, hp⟩
      | exact ⟨hp, le_rfl⟩
      | exact hobj _

theorem rpemImpScore_bounds (p : ℚ) (hp : 0 ≤ p) (v : JVal) :
    0 ≤ rpemImpScore p v ∧ rpemImpScore p v ≤ p := by
  have hobj : ∀ fields : List (String × JVal),
      0 ≤ p * ((subNonNull fields : ℚ) / ((max fields.length 1 : ℕ) : ℚ)) ∧
      p * ((subNonNull fields : ℚ) / ((max fields.length 1 : ℕ) : ℚ)) ≤ p := by
    intro fields
    rcases ratio_nonneg_le_one (subNonNull fields) fields.length (subNonNull_le_length fields)
      with ⟨h0, h1⟩
    refine ⟨mul_nonneg hp h0, ?_⟩
    calc p * ((subNonNull fields : ℚ) / ((max fields.length 1 : ℕ) : ℚ)) ≤ p * 1 :=
          mul_le_mul_of_nonneg_left h1 hp
      _ = p := mul_one p
  cases v with
  | obj fields =>
    simp only [rpemImpScore]
    split_ifs
    · exact hobj fields
    · exact ⟨le_rfl, hp⟩
  | arr items =>
    simp only [rpemImpScore]
    split_ifs
    · rw [mul_one]
      exact ⟨hp, le_rfl⟩
    · rw [mul_zero]
      exact ⟨le_rfl, hp⟩
    · exact ⟨le_rfl, hp⟩
  | null =>
    simp only [rpemImpScore]
    split_ifs <;> first | exact ⟨hp, le_rfl⟩ | exact ⟨le_rfl, hp⟩
  | bool b =>
    simp only [rpemImpScore]
    split_ifs <;> first | exact ⟨hp, le_rfl⟩ | exact ⟨le_rfl, hp⟩
  | num q =>
    simp only [rpemImpScore]
    split_ifs <;> first | exact ⟨hp, le_rfl⟩ | exact ⟨le_rfl, hp⟩
  | str s =>
    simp only [rpemImpScore]
    split_ifs <;> first | exact ⟨hp, le_rfl⟩ | exact ⟨le_rfl, hp⟩

theorem rpemSuppScore_bounds (p : ℚ) (hp : 0 ≤ p) (v : JVal) :
    0 ≤ rpemSuppScore p v ∧ rpemSuppScore p v ≤ p := by
  unfold rpemSuppScore
  split_ifs <;> first | exact ⟨le_rfl, hp⟩ | exact ⟨hp, le_rfl⟩

theorem fltCritScore_bounds (p : ℚ) (hp : 0 ≤ p) (v : JVal) :
    0 ≤ fltCritScore p v ∧ fltCritScore p v ≤ p := by
  cases v <;> simp only [fltCritScore] <;> split_ifs <;>
    first | exact ⟨le_rfl, hp⟩ | exact ⟨hp, le_rfl⟩

theorem fltImpScore_bounds (p : ℚ) (hp : 0 ≤ p) (v : JVal) :
    0 ≤ fltImpScore p v ∧ fltImpScore p v ≤ p := by
  cases v with
  | obj fields =>
    simp only [fltImpScore]
    split_ifs with h1 h2
    · have hlen : (0:ℚ) < (fields.length : ℚ) := by exact_mod_cast h2
      have h0 : 0 ≤ ((subNonNullF fields : ℚ) / (fields.length : ℚ)) :=
        div_nonneg (by positivity) hlen.le
      have hle : ((subNonNullF fields : ℚ) / (fields.length : ℚ)) ≤ 1 := by
        rw [div_le_one hlen]
        exact_mod_cast subNonNullF_le_length fields
      refine ⟨mul_nonneg hp h0, ?_⟩
      calc p * ((subNonNullF fields : ℚ) / (fields.length : ℚ)) ≤ p * 1 :=
            mul_le_mul_of_nonneg_left hle hp
        _ = p := mul_one p
    · exact ⟨le_rfl, hp⟩
    · exact ⟨le_rfl, hp⟩
  | arr items =>
    simp only [fltImpScore]
    split_ifs <;> first | exact ⟨le_rfl, hp⟩ | exact ⟨hp, le_rfl⟩
  | null =>
    simp only [fltImpScore]
    split_ifs <;> first | exact ⟨le_rfl, hp⟩ | exact ⟨hp, le_rfl⟩
  | bool b =>
    simp only [fltImpScore]
    split_ifs <;> first | exact ⟨le_rfl, hp⟩ | exact ⟨hp, le_rfl⟩
  | num q =>
    simp only [fltImpScore]
    split_ifs <;> first | exact ⟨le_rfl, hp⟩ | exact ⟨hp, le_rfl⟩
  | str s =>
    simp only [fltImpScore]
    split_ifs <;> first | exact ⟨le_rfl, hp⟩ | exact ⟨hp, le_rfl⟩

theorem fltSuppScore_bounds (p : ℚ) (hp : 0 ≤ p) (v : JVal) :
    0 ≤ fltSuppScore p v ∧ fltSuppScore p v ≤ p := by
  cases v with
  | obj fields =>
    simp only [fltSuppScore]
    split_ifs with h1 h2
    · have h0 : (0:ℚ) ≤ min 1 ((subNonNullF fields : ℚ) / 2) :=
        le_min (by norm_num) (by positivity)
      have hle : min 1 ((subNonNullF fields : ℚ) / 2) ≤ 1 := min_le_left _ _
      refine ⟨mul_nonneg hp h0, ?_⟩
      calc p * min 1 ((subNonNullF fields : ℚ) / 2) ≤ p * 1 :=
            mul_le_mul_of_nonneg_left hle hp
        _ = p := mul_one p
    · exact ⟨le_rfl, hp⟩
    · exact ⟨le_rfl, hp⟩
  | arr items =>
    simp only [fltSuppScore]
    split_ifs <;> first | exact ⟨le_rfl, hp⟩ | exact ⟨hp, le_rfl⟩
  | null =>
    simp only [fltSuppScore]
    split_ifs <;> first | exact ⟨le_rfl, hp⟩ | exact ⟨hp, le_rfl⟩
  | bool b =>
    simp only [fltSuppScore]
    split_ifs <;> first | exact ⟨le_rfl, hp⟩ | exact ⟨hp, le_rfl⟩
  | num q =>
    simp only [fltSuppScore]
    split_ifs <;> first | exact ⟨le_rfl, hp⟩ | exact ⟨hp, le_rfl⟩
  | str s =>
    simp only [fltSuppScore]
    split_ifs <;> first | exact ⟨le_rfl, hp⟩ | exact ⟨hp, le_rfl⟩

theorem critical_fields_points_nonneg : ∀ fp ∈ critical_fields, (0:ℚ) ≤ fp.2 := by
  intro fp hfp
  fin_cases hfp <;> norm_num

theorem important_fields_points_nonneg : ∀ fp ∈ important_fields, (0:ℚ) ≤ fp.2 := by
  intro fp hfp
  fin_cases hfp <;> norm_num

theorem supplementary_fields_points_nonneg : ∀ fp ∈ supplementary_fields, (0:ℚ) ≤ fp.2 := by
  intro fp hfp
  fin_cases hfp <;> norm_num

theorem tier_sum_bounds (reg : RegRecord) (fl : List (String × ℚ)) (F : ℚ → JVal → ℚ)
    (hF : ∀ p, 0 ≤ p → ∀ v, 0 ≤ F p v ∧ F p v ≤ p) (hpos : ∀ fp ∈ fl, (0:ℚ) ≤ fp.2) :
    0 ≤ (fl.map (fun fp => F fp.2 (jget reg fp.1))).sum ∧
    (fl.map (fun fp => F fp.2 (jget reg fp.1))).sum ≤ (fl.map (fun fp => fp.2)).sum := by
  constructor
  · apply List.sum_nonneg
    intro x hx
    rcases List.mem_map.mp hx with ⟨fp, hfp, rfl⟩
    exact (hF fp.2 (hpos fp hfp) _).1
  · apply List.sum_le_sum
    intro fp hfp
    exact (hF fp.2 (hpos fp hfp) _).2

theorem rpemRawScore_bounds (regulation : RegRecord) :
    0 ≤ rpemRawScore regulation ∧ rpemRawScore regulation ≤ 100 := by
  rcases tier_sum_bounds regulation critical_fields rpemCritScore rpemCritScore_bounds
    critical_fields_points_nonneg with ⟨c0, c1⟩
  rcases tier_sum_bounds regulation important_fields rpemImpScore rpemImpScore_bounds
    important_fields_points_nonneg with ⟨i0, i1⟩
  rcases tier_sum_bounds regulation supplementary_fields rpemSuppScore rpemSuppScore_bounds
    supplementary_fields_points_nonneg with ⟨s0, s1⟩
  have hc : ((critical_fields.map (fun fp => fp.2)).sum : ℚ) = 40 := by
    norm_num [critical_fields]
  have hi : ((important_fields.map (fun fp => fp.2)).sum : ℚ) = 30 := by
    norm_num [important_fields]
  have hs : ((supplementary_fields.map (fun fp => fp.2)).sum : ℚ) = 30 := by
    norm_num [supplementary_fields]
  unfold rpemRawScore
  constructor
  · positivity
  · rw [hc] at c1
    rw [hi] at i1
    rw [hs] at s1
    linarith

theorem fltRawScore_bounds (regulation : RegRecord) :
    0 ≤ fltRawScore regulation ∧ fltRawScore regulation ≤ 100 := by
  rcases tier_sum_bounds regulation critical_fields fltCritScore fltCritScore_bounds
    critical_fields_points_nonneg with ⟨c0, c1⟩
  rcases tier_sum_bounds regulation important_fields fltImpScore fltImpScore_bounds
    important_fields_points_nonneg with ⟨i0, i1⟩
  rcases tier_sum_bounds regulation supplementary_fields fltSuppScore fltSuppScore_bounds
    supplementary_fields_points_nonneg with ⟨s0, s1⟩
  have hc : ((critical_fields.map (fun fp => fp.2)).sum : ℚ) = 40 := by
    norm_num [critical_fields]
  have hi : ((important_fields.map (fun fp => fp.2)).sum : ℚ) = 30 := by
    norm_num [important_fields]
  have hs : ((supplementary_fields.map (fun fp => fp.2)).sum : ℚ) = 30 := by
    norm_num [supplementary_fields]
  unfold fltRawScore
  constructor
  · positivity
  · rw [hc] at c1
    rw [hi] at i1
    rw [hs] at s1
    linarith

theorem fltScore_bounds (regulation : RegRecord) :
    0 ≤ fltScore regulation ∧ fltScore regulation ≤ 100 := by
  rcases fltRawScore_bounds regulation with ⟨h0, h1⟩
  unfold fltScore
  split_ifs
  · exact ⟨le_max_left 0 _, max_le (by norm_num) (by linarith)⟩
  · exact ⟨le_max_left 0 _, max_le (by norm_num) (by linarith)⟩
  · exact ⟨h0, h1⟩

/-- C7: both scoring entry points return a score in the closed interval
from 0 to 100 for every record: tier contributions are clamped to each
field's points, the tiers total 100, and the null-ratio penalty of the
stricter scorer is floored at 0. -/
theorem c7_scores_within_bounds (regulation : RegRecord) :
    (0 ≤ (calculate_quality_score regulation).score ∧
      (calculate_quality_score regulation).score ≤ 100) ∧
    (0 ≤ (calculate_regulation_quality_score regulation).score ∧
      (calculate_regulation_quality_score regulation).score ≤ 100) := by
  rcases rpemRawScore_bounds regulation with ⟨h1, h2⟩
  rcases fltScore_bounds regulation with ⟨h3, h4⟩
  simp only [calculate_quality_score, calculate_regulation_quality_score]
  exact ⟨⟨roundTo1_nonneg h1, roundTo1_le_hundred h2⟩,
    ⟨roundTo1_nonneg h3, roundTo1_le_hundred h4⟩⟩

theorem find?_key_set (pre post : List (String × JVal)) (f g : String) (x : JVal)
    (hf : ∀ kv ∈ pre, kv.1 ≠ f) :
    (pre ++ (f, x) :: post).find? (fun kv => kv.1 == g) =
      if g = f then some (f, x) else (pre ++ post).find? (fun kv => kv.1 == g) := by
  induction pre with
  | nil =>
    simp only [List.nil_append]
    by_cases hgf : g = f
    · subst hgf
      rw [if_pos rfl]
      exact List.find?_cons_of_pos _ (by simp)
    · rw [if_neg hgf]
      exact List.find?_cons_of_neg _ (by simp [Ne.symm hgf])
  | cons kv rest ih =>
    have hkv : kv.1 ≠ f := hf kv (List.mem_cons_self kv rest)
    have hf' : ∀ kv' ∈ rest, kv'.1 ≠ f := fun kv' h => hf kv' (List.mem_cons_of_mem kv h)
    simp only [List.cons_append]
    by_cases hkg : ((fun kv : String × JVal => kv.1 == g) kv) = true
    · have hgf : ¬ g = f := by
        intro hgf
        apply hkv
        have : kv.1 = g := by simpa using hkg
        rw [this, hgf]
      have hres1 : List.find? (fun kv : String × JVal => kv.1 == g)
          (kv :: (rest ++ (f, x) :: post)) = some kv := List.find?_cons_of_pos _ hkg
      have hres2 : List.find? (fun kv : String × JVal => kv.1 == g)
          (kv :: (rest ++ post)) = some kv := List.find?_cons_of_pos _ hkg
      rw [hres1, if_neg hgf, hres2]
    · have hres1 : List.find? (fun kv : String × JVal => kv.1 == g)
          (kv :: (rest ++ (f, x) :: post)) =
          List.find? (fun kv : String × JVal => kv.1 == g) (rest ++ (f, x) :: post) :=
        List.find?_cons_of_neg _ hkg
      have hres2 : List.find? (fun kv : String × JVal => kv.1 == g)
          (kv :: (rest ++ post)) =
          List.find? (fun kv : String × JVal => kv.1 == g) (rest ++ post) :=
        List.find?_cons_of_neg _ hkg
      rw [hres1, ih hf']
      by_cases hgf : g = f
      · rw [if_pos hgf, if_pos hgf]
      · rw [if_neg hgf, if_neg hgf, hres2]

theorem jget_set (pre post : List (String × JVal)) (f g : String) (x : JVal)
    (hf : ∀ kv ∈ pre, kv.1 ≠ f) :
    jget (pre ++ (f, x) :: post) g = if g = f then x else jget (pre ++ post) g := by
  unfold jget jgetD
  rw [find?_key_set pre post f g x hf]
  by_cases hgf : g = f
  · rw [if_pos hgf, if_pos hgf]
    rfl
  · rw [if_neg hgf, if_neg hgf]

theorem isBlankSimple_cases (v : JVal) (hb : isBlankSimple v = true) :
    v.truthy = false ∨ v = .str "null" := by
  cases v with
  | str s =>
    have hs : (s == "null" || s == "") = true := by simpa [isBlankSimple] using hb
    rcases (by simpa using hs : s = "null" ∨ s = "") with h | h
    · right
      rw [h]
    · left
      simp [JVal.truthy, h]
  | null => left; rfl
  | bool b =>
    left
    simpa [isBlankSimple, JVal.truthy] using hb
  | num q =>
    left
    simpa [isBlankSimple, JVal.truthy] using hb
  | arr items =>
    left
    simpa [isBlankSimple, JVal.truthy] using hb
  | obj fields =>
    left
    simpa [isBlankSimple, JVal.truthy] using hb

theorem rpem_scores_blank (p : ℚ) (v : JVal) (hb : isBlankSimple v = true) :
    rpemCritScore p v = 0 ∧ rpemImpScore p v = 0 ∧ rpemSuppScore p v = 0 := by
  rcases isBlankSimple_cases v hb with ht | rfl
  · refine ⟨?_, ?_, ?_⟩ <;> simp [rpemCritScore, rpemImpScore, rpemSuppScore, ht]
  · refine ⟨?_, ?_, ?_⟩
    · unfold rpemCritScore
      rw [if_neg (by decide)]
    · unfold rpemImpScore
      rw [if_neg (by decide)]
    · unfold rpemSuppScore
      rw [if_neg (by decide)]

theorem rpemRawScore_mono (pre post : List (String × JVal)) (f : String) (b v : JVal)
    (hf : ∀ kv ∈ pre, kv.1 ≠ f) (hb : isBlankSimple b = true) :
    rpemRawScore (pre ++ (f, b) :: post) ≤ rpemRawScore (pre ++ (f, v) :: post) := by
  have key : ∀ (F : ℚ → JVal → ℚ) (fl : List (String × ℚ)),
      (∀ p w, 0 ≤ p → 0 ≤ F p w) → (∀ p, F p b = 0) → (∀ fp ∈ fl, (0:ℚ) ≤ fp.2) →
      (fl.map (fun fp => F fp.2 (jget (pre ++ (f, b) :: post) fp.1))).sum ≤
      (fl.map (fun fp => F fp.2 (jget (pre ++ (f, v) :: post) fp.1))).sum := by
    intro F fl hF0 hFb hfl
    apply List.sum_le_sum
    intro fp hfp
    by_cases hgf : fp.1 = f
    · rw [jget_set pre post f fp.1 b hf, jget_set pre post f fp.1 v hf, if_pos hgf,
        if_pos hgf, hFb]
      exact hF0 _ _ (hfl fp hfp)
    · rw [jget_set pre post f fp.1 b hf, jget_set pre post f fp.1 v hf, if_neg hgf,
        if_neg hgf]
  unfold rpemRawScore
  have k1 := key rpemCritScore critical_fields
    (fun p w hp => (rpemCritScore_bounds p hp w).1)
    (fun p => (rpem_scores_blank p b hb).1) critical_fields_points_nonneg
  have k2 := key rpemImpScore important_fields
    (fun p w hp => (rpemImpScore_bounds p hp w).1)
    (fun p => (rpem_scores_blank p b hb).2.1) important_fields_points_nonneg
  have k3 := key rpemSuppScore supplementary_fields
    (fun p w hp => (rpemSuppScore_bounds p hp w).1)
    (fun p => (rpem_scores_blank p b hb).2.2) supplementary_fields_points_nonneg
  exact add_le_add (add_le_add k1 k2) k3

/-- C6 (amended): in the simple scorer only, replacing a top-level field
value that the code scores as blank (a falsy value such as null, the empty
string, an empty list or dict, or the string literal null) with any other
value never decreases the score; the original claim fails because "N/A"
and "Unknown" earn full important-tier points as scalars, and because the
null-ratio penalty of the stricter scorer can grow under such a
replacement. -/
theorem c6_amended_simple_scorer_monotone (pre post : List (String × JVal)) (f : String)
    (b v : JVal) (hf : ∀ kv ∈ pre, kv.1 ≠ f) (hb : isBlankSimple b = true) :
    (calculate_quality_score (pre ++ (f, b) :: post)).score ≤
      (calculate_quality_score (pre ++ (f, v) :: post)).score := by
  simp only [calculate_quality_score]
  exact roundTo1_mono (rpemRawScore_mono pre post f b v hf hb)

theorem c6_amended_simple_scorer_monotone_witness :
    (calculate_quality_score [("jurisdiction", JVal.null)]).score ≤
      (calculate_quality_score [("jurisdiction", JVal.str "EU")]).score := by
  have h := c6_amended_simple_scorer_monotone [] [] "jurisdiction" JVal.null (JVal.str "EU")
    (by simp) (by rfl)
  simpa using h

/-- C6 counterexample: replacing the blank value "N/A" of the jurisdiction
field by a non-blank non-empty dict whose sub-field is null makes the
simple score drop from 6 to 0, so the claimed monotonicity of both scorers
fails. -/
theorem c6_counterexample :
    (calculate_quality_score c6_reg2).score < (calculate_quality_score c6_reg1).score := by
  have h1 : rpemRawScore c6_reg1 = 6 := by
    simp [rpemRawScore, critical_fields, important_fields, supplementary_fields,
      c6_reg1, jget, jgetD, rpemCritScore, rpemImpScore, rpemSuppScore, JVal.truthy,
      inBlankListCrit, inBlankListShort]
  have h2 : rpemRawScore c6_reg2 = 0 := by
    simp [rpemRawScore, critical_fields, important_fields, supplementary_fields,
      c6_reg2, jget, jgetD, rpemCritScore, rpemImpScore, rpemSuppScore, JVal.truthy,
      inBlankListCrit, inBlankListShort, subNonNull, List.countP_cons, List.countP_nil]
  simp only [calculate_quality_score]
  rw [h1, h2, roundTo1_zero, roundTo1_eq_low 6 60 (by norm_num) (by norm_num)]
  norm_num

/-! ## Claims about the segmenter -/

theorem matchAt_append (l m r : List Char) (h : matchAt l = some (m, r)) :
    l = m ++ r ∧ startswithHash m = true := by
  unfold matchAt at h
  by_cases hs : startswithHash l = true
  · rw [if_pos hs] at h
    cases hd : l.dropWhile (fun c => c == '#') with
    | nil =>
      rw [hd] at h
      exact absurd h (by simp)
    | cons c tail =>
      rw [hd] at h
      dsimp only at h
      by_cases hsp : isPySpace c = true
      · rw [if_pos hsp] at h
        simp only [Option.some.injEq, Prod.mk.injEq] at h
        obtain ⟨hm, hr⟩ := h
        subst hm
        subst hr
        constructor
        · have h1 : l.takeWhile (fun c => c == '#') ++ l.dropWhile (fun c => c == '#') = l :=
            List.takeWhile_append_dropWhile _ _
          have h2 : tail.takeWhile (fun c => c != '\n') ++ tail.dropWhile (fun c => c != '\n')
              = tail := List.takeWhile_append_dropWhile _ _
          conv_lhs => rw [← h1, hd]
          simp only [List.append_assoc, List.cons_append]
          rw [h2]
        · cases l with
          | nil => simp [startswithHash] at hs
          | cons c0 l' =>
            have hc0 : c0 = '#' := by
              have := hs
              simp [startswithHash] at this
              exact this
            subst hc0
            simp [startswithHash, List.takeWhile_cons]
      · rw [if_neg hsp] at h
        exact absurd h (by simp)
  · rw [if_neg hs] at h
    exact absurd h (by simp)

theorem findMatch_spec : ∀ l p m r : List Char, findMatch l = some (p, m, r) →
    l = p ++ m ++ r ∧ matchAt (m ++ r) = some (m, r) ∧ startswithHash m = true := by
  intro l
  induction l with
  | nil =>
    intro p m r h
    simp [findMatch] at h
  | cons c cs ih =>
    intro p m r h
    simp only [findMatch] at h
    cases hma : matchAt (c :: cs) with
    | some mr =>
      rcases mr with ⟨m0, r0⟩
      rw [hma] at h
      simp only [Option.some.injEq, Prod.mk.injEq] at h
      obtain ⟨hp, hm, hr⟩ := h
      subst hp
      subst hm
      subst hr
      obtain ⟨heq, hsh⟩ := matchAt_append (c :: cs) m0 r0 hma
      refine ⟨by simpa using heq, ?_, hsh⟩
      rw [← heq]
      exact hma
    | none =>
      rw [hma] at h
      cases hfm : findMatch cs with
      | none =>
        rw [hfm] at h
        simp at h
      | some t =>
        rcases t with ⟨p', m', r'⟩
        rw [hfm] at h
        simp only [Option.some.injEq, Prod.mk.injEq] at h
        obtain ⟨hp, hm, hr⟩ := h
        subst hp
        subst hm
        subst hr
        obtain ⟨ha, hb, hc⟩ := ih p' m' r' hfm
        exact ⟨by simp [ha], hb, hc⟩

theorem findMatch_rest_lt (l p m r : List Char) (h : findMatch l = some (p, m, r)) :
    r.length < l.length := by
  obtain ⟨ha, _, hc⟩ := findMatch_spec l p m r h
  have hm : m ≠ [] := by
    intro hm
    rw [hm] at hc
    simp [startswithHash] at hc
  have hm1 : 0 < m.length := List.length_pos.mpr hm
  rw [ha]
  simp only [List.length_append]
  omega

theorem splitPartsAux_congr (fuel : ℕ) : ∀ l : List Char, l.length ≤ fuel →
    splitPartsAux fuel l = splitPartsAux l.length l := by
  induction fuel using Nat.strong_induction_on with
  | _ fuel ih =>
    intro l hl
    cases fuel with
    | zero =>
      have : l = [] := List.length_eq_zero.mp (Nat.le_zero.mp hl)
      subst this
      rfl
    | succ k =>
      cases hlen : l.length with
      | zero =>
        have : l = [] := List.length_eq_zero.mp hlen
        subst this
        rfl
      | succ j =>
        cases hfm : findMatch l with
        | none => simp [splitPartsAux, hfm]
        | some t =>
          rcases t with ⟨p, m, r⟩
          have hrlt : r.length < l.length := findMatch_rest_lt l p m r hfm
          simp only [splitPartsAux, hfm]
          have h1 : splitPartsAux k r = splitPartsAux r.length r :=
            ih k (by omega) r (by omega)
          have h2 : splitPartsAux j r = splitPartsAux r.length r :=
            ih j (by omega) r (by omega)
          rw [h1, h2]

theorem splitParts_of_none (l : List Char) (h : findMatch l = none) :
    splitParts l = [l] := by
  unfold splitParts
  cases hlen : l.length with
  | zero =>
    have : l = [] := List.length_eq_zero.mp hlen
    subst this
    rfl
  | succ j =>
    simp [splitPartsAux, h]

theorem splitParts_of_some (l p m r : List Char) (h : findMatch l = some (p, m, r)) :
    splitParts l = p :: m :: splitParts r := by
  unfold splitParts
  cases hlen : l.length with
  | zero =>
    have : l = [] := List.length_eq_zero.mp hlen
    subst this
    simp [findMatch] at h
  | succ j =>
    simp only [splitPartsAux, h]
    have := findMatch_rest_lt l p m r h
    rw [splitPartsAux_congr j r (by omega)]

theorem hasMatchIn_false (l : List Char) (h : hasMatchIn l = false) :
    findMatch l = none := by
  induction l with
  | nil => rfl
  | cons c cs ih =>
    have h1 : (matchAt (c :: cs)).isSome = false ∧ hasMatchIn cs = false := by
      simpa [hasMatchIn] using h
    rcases h1 with ⟨ha, hb⟩
    cases hma : matchAt (c :: cs) with
    | some t =>
      rw [hma] at ha
      simp at ha
    | none =>
      simp [findMatch, hma, ih hb]

theorem findMatch_cons_of_matchAt (c : Char) (cs m r : List Char)
    (h : matchAt (c :: cs) = some (m, r)) : findMatch (c :: cs) = some ([], m, r) := by
  simp [findMatch, h]

theorem sectionsLoop_cons_not_hash (p : List Char) (ps : List (List Char))
    (curTitle : Option (List Char)) (curContent : List Char)
    (h : startswithHash p = false) :
    sectionsLoop (p :: ps) curTitle curContent =
      sectionsLoop ps curTitle (curContent ++ p) := by
  simp [sectionsLoop, h]

theorem sectionsLoop_cons_hash_none (p : List Char) (ps : List (List Char))
    (curContent : List Char) (h : startswithHash p = true) :
    sectionsLoop (p :: ps) none curContent = sectionsLoop ps (some (strip p)) [] := by
  simp [sectionsLoop, h]

/-- C5 (amended): the segmenter returns the empty list when the regex has
no match anywhere in the input and the input does not itself begin with a
hash mark; and the text before the first match is discarded provided that
text does not begin with a hash mark (dropping it leaves the output
unchanged).  The claim as stated fails because the regex is unanchored and
the part classifier tests only for a leading hash, so hash marks outside
claim-style header lines create spurious sections. -/
theorem c5_amended_segmenter (l : List Char) :
    (hasMatchIn l = false → startswithHash l = false → split_into_sections l = []) ∧
    (∀ p m r : List Char, findMatch l = some (p, m, r) → startswithHash p = false →
      split_into_sections l = split_into_sections (m ++ r)) := by
  constructor
  · intro hnm hsh
    unfold split_into_sections
    rw [splitParts_of_none l (hasMatchIn_false l hnm),
      sectionsLoop_cons_not_hash l [] none [] hsh]
    rfl
  · intro p m r hfm hp
    obtain ⟨heq, hma, hsh⟩ := findMatch_spec l p m r hfm
    have hfm2 : findMatch (m ++ r) = some ([], m, r) := by
      cases m with
      | nil => simp [startswithHash] at hsh
      | cons mh mtl =>
        have h' : matchAt (mh :: (mtl ++ r)) = some (mh :: mtl, r) := by
          have h0 := hma
          rw [List.cons_append] at h0
          exact h0
        rw [List.cons_append]
        exact findMatch_cons_of_matchAt mh (mtl ++ r) (mh :: mtl) r h'
    unfold split_into_sections
    rw [splitParts_of_some l p m r hfm,
      sectionsLoop_cons_not_hash p _ none [] hp,
      sectionsLoop_cons_hash_none m _ _ hsh,
      splitParts_of_some (m ++ r) [] m r hfm2,
      sectionsLoop_cons_not_hash [] _ none [] (by rfl),
      sectionsLoop_cons_hash_none m _ _ hsh]

theorem c5_amended_segmenter_witness :
    split_into_sections ('x' :: 'y' :: []) = [] :=
  (c5_amended_segmenter ('x' :: 'y' :: [])).1 (by decide) (by decide)

/-- C5 counterexample: the input consisting of a hash mark followed by the
letter x contains no header line in the sense of the claim (no line begins
with hash marks followed by whitespace), yet split_into_sections returns a
section for it rather than the empty list. -/
theorem c5_counterexample :
    hasHeaderLine ('#' :: 'x' :: []) = false ∧
    split_into_sections ('#' :: 'x' :: []) ≠ [] := by
  exact ⟨by decide, by decide⟩
